import Mathlib

/-!
Verification of the PSP34 non-fungible-token ledger.

The definitions below are a shallow embedding of the Rust sources:
  * `src/data.rs`    — `Id`, `PSP34Event`, `PSP34Data` and its operations
                       (`mint`, `burn`, `transfer`, `approve`, the views);
  * `src/balances.rs` — the two balance-accounting strategies: the default
                       counting strategy (`Balances`) and the enumerable
                       strategy (`Enumerable.Balances`).

`ink::storage::Mapping` is modelled as an association list with
overwrite-on-insert semantics (`Mapping` below).  Machine integers are
modelled as `Nat` with the overflow checks of the source made explicit
(`checked_add` on a `u32` fails exactly when the sum would reach `2^32`,
on a `u128` when it would reach `2^128`).  Fallible operations return an
`Except` value paired with the post-state; the pairing is essential
because the source mutates `&mut self` before some of its error returns,
and that partial mutation is observable.
-/

deriving instance DecidableEq for Except

namespace PSP34

/-- Account identifiers (`ink::primitives::AccountId`, an opaque 32-byte
value).  Only equality of accounts is ever used by the ledger, so accounts
are modelled as an opaque type with decidable equality. -/
abbrev AccountId := Nat

/-- A key-value store modelling `ink::storage::Mapping`: an association
list whose `insert` overwrites any previous binding of the key. -/
structure Mapping (K V : Type) where
  entries : List (K × V)
deriving DecidableEq

/-- First binding of a key in an association list. -/
def lookupKey [DecidableEq K] : List (K × V) → K → Option V
  | [], _ => none
  | p :: rest, k => if p.1 = k then some p.2 else lookupKey rest k

/-- Drop every binding of a key from an association list. -/
def removeKey [DecidableEq K] : List (K × V) → K → List (K × V)
  | [], _ => []
  | p :: rest, k => if p.1 = k then removeKey rest k else p :: removeKey rest k

/-- `Mapping::get`. -/
def Mapping.get [DecidableEq K] (m : Mapping K V) (k : K) : Option V :=
  lookupKey m.entries k

/-- `Mapping::remove`. -/
def Mapping.remove [DecidableEq K] (m : Mapping K V) (k : K) : Mapping K V :=
  ⟨removeKey m.entries k⟩

/-- `Mapping::insert` (overwrites any previous value of the key). -/
def Mapping.insert [DecidableEq K] (m : Mapping K V) (k : K) (v : V) : Mapping K V :=
  ⟨(k, v) :: removeKey m.entries k⟩

/-- `Id` from `src/data.rs`: a token id over several integer widths or raw
bytes.  The numeric payloads only ever matter up to equality, so they are
carried as `Nat` (resp. `List Nat` for `Bytes`). -/
inductive Id
  | U8 (v : Nat)
  | U16 (v : Nat)
  | U32 (v : Nat)
  | U64 (v : Nat)
  | U128 (v : Nat)
  | Bytes (v : List Nat)
deriving DecidableEq

/-- Modelled from the spec: `PSP34Error` is declared in `errors.rs`, which
is not among the provided sources; its constructors are those applied in
`src/data.rs` and `src/balances.rs`, matching the error kinds of spec §7.
The overflow kind the spec calls `LimitExceeded` appears in
`src/balances.rs` as `Custom` errors with the two overflow messages. -/
inductive PSP34Error
  | Custom (msg : String)
  | SelfApprove
  | NotApproved
  | TokenExists
  | TokenNotExists
deriving DecidableEq

/-- `PSP34Event` from `src/data.rs`. -/
inductive PSP34Event
  | Transfer (from_ : Option AccountId) (to_ : Option AccountId) (id : Id)
  | Approval (owner : AccountId) (operator : AccountId) (id : Option Id) (approved : Bool)
  | AttributeSet (id : Id) (key : List Nat) (data : List Nat)
deriving DecidableEq

/-- The counting balance strategy (`src/balances.rs`, default build):
a `u32` counter per owner plus a `u128` global supply counter. -/
structure Balances where
  owned_tokens_count : Mapping AccountId Nat
  total_supply : Nat
deriving DecidableEq

/-- `Balances::balance_of` (counting strategy): `unwrap_or(0)`. -/
def Balances.balance_of (self : Balances) (owner : AccountId) : Nat :=
  (self.owned_tokens_count.get owner).getD 0

/-- `Balances::increase_balance` (counting strategy).  The owner counter
is committed *before* the supply check, exactly as in the source: when the
supply `checked_add` fails, the error is returned with the owner counter
already inserted. -/
def Balances.increase_balance (self : Balances) (owner : AccountId) (_id : Id)
    (increase_supply : Bool) : Except PSP34Error Unit × Balances :=
  let to_balance := self.balance_of owner
  if to_balance + 1 < 2 ^ 32 then
    let committed : Balances :=
      ⟨self.owned_tokens_count.insert owner (to_balance + 1), self.total_supply⟩
    if increase_supply then
      if committed.total_supply + 1 < 2 ^ 128 then
        (.ok (), ⟨committed.owned_tokens_count, committed.total_supply + 1⟩)
      else
        (.error (.Custom "Max PSP34 supply exceeded. Max supply limited to 2^128-1."),
         committed)
    else
      (.ok (), committed)
  else
    (.error (.Custom "Max PSP34 balance exceeded. Max balance limited to 2^32-1."), self)

/-- `Balances::decrease_balance` (counting strategy).  The source performs
`total_supply -= 1` on a `u128` with no underflow guard; the theorems
below only invoke it under a positivity hypothesis, where the `Nat`
subtraction agrees with the machine subtraction. -/
def Balances.decrease_balance (self : Balances) (owner : AccountId) (_id : Id)
    (decrease_supply : Bool) : Balances :=
  let from_balance := self.balance_of owner
  let counts :=
    if from_balance ≤ 1 then self.owned_tokens_count.remove owner
    else self.owned_tokens_count.insert owner (from_balance - 1)
  ⟨counts, if decrease_supply then self.total_supply - 1 else self.total_supply⟩

/-- `PSP34Data` from `src/data.rs` (with the counting strategy composed). -/
structure PSP34Data where
  token_owner : Mapping Id AccountId
  operator_approvals : Mapping (AccountId × AccountId × Option Id) Unit
  balance : Balances
deriving DecidableEq

/-- `PSP34Data::new`: all maps empty, supply zero. -/
def PSP34Data.new : PSP34Data := ⟨⟨[]⟩, ⟨[]⟩, ⟨⟨[]⟩, 0⟩⟩

/-- `PSP34Data::total_supply`. -/
def PSP34Data.total_supply (self : PSP34Data) : Nat :=
  self.balance.total_supply

/-- `PSP34Data::balance_of`. -/
def PSP34Data.balance_of (self : PSP34Data) (owner : AccountId) : Nat :=
  self.balance.balance_of owner

/-- `PSP34Data::owner_of`. -/
def PSP34Data.owner_of (self : PSP34Data) (id : Id) : Option AccountId :=
  self.token_owner.get id

/-- `PSP34Data::allowance`: a blanket approval, or (when an id is given) a
specific-id approval. -/
def PSP34Data.allowance (self : PSP34Data) (owner operator : AccountId)
    (id : Option Id) : Bool :=
  (self.operator_approvals.get (owner, operator, none)).isSome ||
    (id.isSome && (self.operator_approvals.get (owner, operator, id)).isSome)

/-- `PSP34Data::approve`.  When an id is given the effective granter is the
resolved owner (the source reassigns `caller = owner`); the three guards
are checked in source order.  Errors are returned before any mutation. -/
def PSP34Data.approve (self : PSP34Data) (caller operator : AccountId)
    (id : Option Id) (approved : Bool) :
    Except PSP34Error (List PSP34Event) × PSP34Data :=
  let check : Except PSP34Error AccountId :=
    match id with
    | none => .ok caller
    | some i =>
      match self.owner_of i with
      | none => .error .TokenNotExists
      | some owner =>
        if approved = true ∧ owner = operator then
          .error .SelfApprove
        else if owner ≠ caller ∧ self.allowance owner caller none = false then
          .error .NotApproved
        else if approved = false ∧ self.allowance owner operator none = true then
          .error (.Custom "Cannot revoke approval for a single token, when the operator has approval for all tokens.")
        else
          .ok owner
  match check with
  | .error e => (.error e, self)
  | .ok granter =>
    let approvals :=
      if approved then self.operator_approvals.insert (granter, operator, id) ()
      else self.operator_approvals.remove (granter, operator, id)
    (.ok [.Approval granter operator id approved],
     { self with operator_approvals := approvals })

/-- `PSP34Data::transfer`.  Mirrors the source's mutation order: decrease
the owner's balance, drop the caller's specific-id approval, re-key the
ownership entry, then increase the recipient's balance — whose failure is
returned *after* those mutations, exactly as the source's `?` does on
`&mut self`.  The returned event records `from: Some(caller)`. -/
def PSP34Data.transfer (self : PSP34Data) (caller to_ : AccountId) (id : Id)
    (_data : List Nat) : Except PSP34Error (List PSP34Event) × PSP34Data :=
  match self.owner_of id with
  | none => (.error .TokenNotExists, self)
  | some owner =>
    if owner = to_ then
      (.ok [], self)
    else if owner ≠ caller ∧ self.allowance owner caller (some id) = false then
      (.error .NotApproved, self)
    else
      let b1 := self.balance.decrease_balance owner id false
      let approvals1 := self.operator_approvals.remove (owner, caller, some id)
      let owners1 := (self.token_owner.remove id).insert id to_
      match Balances.increase_balance b1 to_ id false with
      | (.error e, b2) => (.error e, ⟨owners1, approvals1, b2⟩)
      | (.ok _, b2) =>
        (.ok [.Transfer (some caller) (some to_) id], ⟨owners1, approvals1, b2⟩)

/-- `PSP34Data::mint`.  On a supply-overflow failure of
`increase_balance` the already-committed owner counter is kept, as in the
source. -/
def PSP34Data.mint (self : PSP34Data) (account : AccountId) (id : Id) :
    Except PSP34Error (List PSP34Event) × PSP34Data :=
  if (self.owner_of id).isSome then
    (.error .TokenExists, self)
  else
    match Balances.increase_balance self.balance account id true with
    | (.error e, b) => (.error e, { self with balance := b })
    | (.ok _, b) =>
      (.ok [.Transfer none (some account) id],
       { self with balance := b, token_owner := self.token_owner.insert id account })

/-- `PSP34Data::burn`.  Note the authorization guard of the source:
`allowance(caller, account, None)` — `caller` in the owner slot and
`account` in the operator slot — and that the actual owner of `id` is
never consulted after the existence check. -/
def PSP34Data.burn (self : PSP34Data) (caller account : AccountId) (id : Id) :
    Except PSP34Error (List PSP34Event) × PSP34Data :=
  if self.owner_of id = none then
    (.error .TokenNotExists, self)
  else if account ≠ caller ∧ self.allowance caller account none = false then
    (.error .NotApproved, self)
  else
    let b1 := self.balance.decrease_balance account id true
    (.ok [.Transfer (some account) none id],
     ⟨self.token_owner.remove id, self.operator_approvals, b1⟩)

/-- Number of ids currently mapped to `o` in the ownership record. -/
def ownedCount (d : PSP34Data) (o : AccountId) : Nat :=
  (d.token_owner.entries.filter (fun p => decide (p.2 = o))).length

/-- Number of ids currently present in the ownership record. -/
def ownershipSize (d : PSP34Data) : Nat :=
  d.token_owner.entries.length

namespace Enumerable

/-- The largest index convertible to `usize` (64-bit host; on the wasm32
contract target it is `2^32 - 1`, smaller still — every index used below
overflows either width). -/
def usizeMax : Nat := 2 ^ 64 - 1

/-- Outcome of running a piece of Rust that may `panic!` via a failed
`unwrap`: either a value, or an uncatchable fault. -/
inductive RunResult (α : Type)
  | ok (val : α)
  | fault
deriving DecidableEq

/-- The enumerable balance strategy (`src/balances.rs`, `enumerable`
feature): per-owner id lists under `Some(owner)` and a global id list
under `None`. -/
structure Balances where
  enumerable : Mapping (Option AccountId) (List Id)
deriving DecidableEq

/-- `Balances::_get_value` (enumerable strategy): `get(key).and_then(
|values| values.get(usize::try_from(index).unwrap()).cloned())`.  The
`unwrap` faults when the `u128` index does not fit in `usize`; the
closure — and hence the conversion — only runs when the key has a list. -/
def Balances._get_value (self : Balances) (key : Option AccountId) (index : Nat) :
    RunResult (Option Id) :=
  match self.enumerable.get key with
  | none => .ok none
  | some values =>
    if index ≤ usizeMax then .ok values[index]? else .fault

/-- `Balances::owners_token_by_index` (enumerable strategy). -/
def Balances.owners_token_by_index (self : Balances) (owner : AccountId)
    (index : Nat) : RunResult (Except PSP34Error Id) :=
  match self._get_value (some owner) index with
  | .fault => .fault
  | .ok none => .ok (.error .TokenNotExists)
  | .ok (some v) => .ok (.ok v)

/-- `Balances::token_by_index` (enumerable strategy). -/
def Balances.token_by_index (self : Balances) (index : Nat) :
    RunResult (Except PSP34Error Id) :=
  match self._get_value none index with
  | .fault => .fault
  | .ok none => .ok (.error .TokenNotExists)
  | .ok (some v) => .ok (.ok v)

end Enumerable

/-! ### Concrete example ledgers used by the theorems below -/

/-- The ledger after `mint(0, Id::U8(1))` from the empty ledger: account
`0` owns token `U8 1`. -/
def ledgerA : PSP34Data := (PSP34Data.new.mint 0 (Id.U8 1)).2

/-- `ledgerA` after `approve(caller = 0, operator = 1, None, true)`:
account `0` granted account `1` a blanket approval. -/
def ledgerAB : PSP34Data := (ledgerA.approve 0 1 none true).2

/-- `ledgerA` after `approve(caller = 0, operator = 1, Some(U8 1), true)`:
account `0` granted account `1` a specific-id approval for `U8 1`. -/
def ledgerAS : PSP34Data := (ledgerA.approve 0 1 (some (Id.U8 1)) true).2

/-- An enumerable-strategy balance state holding one token `U8 1`, owned
by account `0`: the global list and account `0`'s list both hold it. -/
def enumLedger : Enumerable.Balances :=
  ⟨⟨[(none, [Id.U8 1]), (some 0, [Id.U8 1])]⟩⟩

/-! ### Association-list lemmas -/

theorem lookupKey_removeKey_self [DecidableEq K] (l : List (K × V)) (k : K) :
    lookupKey (removeKey l k) k = none := by
  induction l with
  | nil => rfl
  | cons p rest ih =>
    by_cases h : p.1 = k
    · simpa [removeKey, h] using ih
    · simp [removeKey, lookupKey, h, ih]

theorem lookupKey_removeKey_ne [DecidableEq K] (l : List (K × V)) (k k' : K)
    (h : k' ≠ k) : lookupKey (removeKey l k) k' = lookupKey l k' := by
  have hk : ¬ k = k' := fun hk => h hk.symm
  induction l with
  | nil => rfl
  | cons p rest ih =>
    by_cases hp : p.1 = k
    · simp [removeKey, lookupKey, hp, hk, ih]
    · by_cases hp' : p.1 = k'
      · simp [removeKey, lookupKey, hp, hp', h]
      · simp [removeKey, lookupKey, hp, hp', ih]

theorem Mapping.get_remove_self [DecidableEq K] (m : Mapping K V) (k : K) :
    (m.remove k).get k = none :=
  lookupKey_removeKey_self m.entries k

theorem Mapping.get_remove_ne [DecidableEq K] (m : Mapping K V) (k k' : K)
    (h : k' ≠ k) : (m.remove k).get k' = m.get k' :=
  lookupKey_removeKey_ne m.entries k k' h

theorem Mapping.get_insert_self [DecidableEq K] (m : Mapping K V) (k : K) (v : V) :
    (m.insert k v).get k = some v := by
  simp [Mapping.insert, Mapping.get, lookupKey]

theorem Mapping.get_insert_ne [DecidableEq K] (m : Mapping K V) (k k' : K) (v : V)
    (h : k' ≠ k) : (m.insert k v).get k' = m.get k' := by
  have : ¬ k = k' := fun hk => h hk.symm
  simp [Mapping.insert, Mapping.get, lookupKey, this,
    lookupKey_removeKey_ne m.entries k k' h]

/-! ### Claim theorems -/

/-- C1: the claimed invariant — after every finite sequence of operations
from the empty ledger, `balance_of o` equals the number of ids mapped to
`o` in the ownership record — fails on the code.  The two-operation
sequence `mint(0, U8 1)` then `burn(caller = 1, account = 1, U8 1)`
succeeds in full (burn never checks that account `1` owns the token), yet
afterwards account `0` has recorded balance `1` while the ownership record
maps no id to `0`. -/
theorem burn_wrong_account_breaks_balance_invariant :
    (PSP34Data.new.mint 0 (Id.U8 1)).1 = .ok [.Transfer none (some 0) (Id.U8 1)] ∧
    ledgerA = (PSP34Data.new.mint 0 (Id.U8 1)).2 ∧
    (ledgerA.burn 1 1 (Id.U8 1)).1 = .ok [.Transfer (some 1) none (Id.U8 1)] ∧
    (ledgerA.burn 1 1 (Id.U8 1)).2.balance_of 0 = 1 ∧
    ownedCount (ledgerA.burn 1 1 (Id.U8 1)).2 0 = 0 := by decide

/-- C2: the claim — burn by an operator holding a blanket allowance from
`account` succeeds — fails on the code.  In `ledgerAB` account `0` owns
`U8 1` and has granted account `1` a blanket approval, yet
`burn(caller = 1, account = 0, U8 1)` returns `NotApproved` (and changes
nothing): the source queries `allowance(caller, account, None)`, putting
`caller` in the owner slot and `account` in the operator slot. -/
theorem burn_rejects_blanket_approved_operator :
    ledgerAB.owner_of (Id.U8 1) = some 0 ∧
    ledgerAB.allowance 0 1 none = true ∧
    ledgerAB.burn 1 0 (Id.U8 1) = (.error .NotApproved, ledgerAB) := by decide

/-- C3: `burn` never checks that `account` owns `id`.  Whenever `id` is
owned by some `X ≠ account` and `caller = account` (so the authorization
guard is skipped), burn returns `Ok`, removes the id from the ownership
record, decrements total supply, and leaves `X`'s recorded balance
unchanged — the balance decrement hits `account`, not `X`.  (The supply
positivity hypothesis holds in every reachable state owning a token; at
supply `0` the source's unchecked `u128` subtraction would not return.) -/
theorem burn_ignores_actual_owner (d : PSP34Data) (caller account X : AccountId)
    (id : Id) (h1 : d.owner_of id = some X) (h2 : X ≠ account)
    (h3 : caller = account) (h4 : 0 < d.balance.total_supply) :
    (d.burn caller account id).1 = .ok [.Transfer (some account) none id] ∧
    (d.burn caller account id).2.owner_of id = none ∧
    (d.burn caller account id).2.total_supply + 1 = d.total_supply ∧
    (d.burn caller account id).2.balance_of X = d.balance_of X := by
  subst h3
  have hred : d.burn caller caller id =
      (.ok [.Transfer (some caller) none id],
       ⟨d.token_owner.remove id, d.operator_approvals,
        d.balance.decrease_balance caller id true⟩) := by
    simp [PSP34Data.burn, h1]
  refine ⟨by rw [hred], ?_, ?_, ?_⟩
  · rw [hred]
    exact Mapping.get_remove_self d.token_owner id
  · rw [hred]
    show (d.balance.decrease_balance caller id true).total_supply + 1
      = d.balance.total_supply
    simp [Balances.decrease_balance]
    omega
  · rw [hred]
    show ((d.balance.decrease_balance caller id true).owned_tokens_count.get X).getD 0
      = (d.balance.owned_tokens_count.get X).getD 0
    simp only [Balances.decrease_balance]
    split_ifs
    · rw [Mapping.get_remove_ne _ _ _ h2]
    · rw [Mapping.get_insert_ne _ _ _ _ h2]

theorem burn_ignores_actual_owner_witness :
    ledgerA.owner_of (Id.U8 1) = some 0 ∧ (0 : AccountId) ≠ 1 ∧
    0 < ledgerA.balance.total_supply ∧
    ((ledgerA.burn 1 1 (Id.U8 1)).1 = .ok [.Transfer (some 1) none (Id.U8 1)] ∧
     (ledgerA.burn 1 1 (Id.U8 1)).2.owner_of (Id.U8 1) = none ∧
     (ledgerA.burn 1 1 (Id.U8 1)).2.total_supply + 1 = ledgerA.total_supply ∧
     (ledgerA.burn 1 1 (Id.U8 1)).2.balance_of 0 = ledgerA.balance_of 0) :=
  ⟨by decide, by decide, by decide,
   burn_ignores_actual_owner ledgerA 1 1 0 (Id.U8 1) (by decide) (by decide) rfl
     (by decide)⟩

/-- C4: the claim — a failed operation mutates nothing, and in particular
the owner counter is not committed when the supply increment fails — is
violated by the code.  With total supply at `2^128 - 1`,
`increase_balance(0, id, true)` returns the supply-overflow error with
account `0`'s counter already committed, and `mint` from such a ledger
returns the error while leaving the balance incremented. -/
theorem failed_supply_increment_commits_owner_counter :
    (Balances.mk ⟨[]⟩ (2 ^ 128 - 1)).increase_balance 0 (Id.U8 1) true =
      (.error (.Custom "Max PSP34 supply exceeded. Max supply limited to 2^128-1."),
       Balances.mk ⟨[(0, 1)]⟩ (2 ^ 128 - 1)) ∧
    (Balances.mk ⟨[]⟩ (2 ^ 128 - 1)).balance_of 0 = 0 ∧
    (Balances.mk ⟨[(0, 1)]⟩ (2 ^ 128 - 1)).balance_of 0 = 1 ∧
    ((PSP34Data.mk ⟨[]⟩ ⟨[]⟩ ⟨⟨[]⟩, 2 ^ 128 - 1⟩).mint 0 (Id.U8 1)).1 =
      .error (.Custom "Max PSP34 supply exceeded. Max supply limited to 2^128-1.") ∧
    ((PSP34Data.mk ⟨[]⟩ ⟨[]⟩ ⟨⟨[]⟩, 2 ^ 128 - 1⟩).mint 0 (Id.U8 1)).2.balance_of 0
      = 1 := by decide

/-- C5: the claim — the Transfer event of a successful delegated transfer
has `from` equal to the previous owner — fails on the code.  In `ledgerAS`
account `0` owns `U8 1` and approved operator `1` for it; the transfer by
caller `1` to account `2` succeeds but the emitted event is
`Transfer{from: Some(1), to: Some(2)}`: the source writes
`from: Some(caller)`, not the owner. -/
theorem transfer_event_from_is_caller :
    ledgerAS.owner_of (Id.U8 1) = some 0 ∧
    (ledgerAS.transfer 1 2 (Id.U8 1) []).1 =
      .ok [.Transfer (some 1) (some 2) (Id.U8 1)] ∧
    (.ok [.Transfer (some 1) (some 2) (Id.U8 1)]
        : Except PSP34Error (List PSP34Event)) ≠
      .ok [.Transfer (some 0) (some 2) (Id.U8 1)] := by decide

/-- C6: in the counting strategy `increase_balance(owner, id, bump)` fails
exactly when the owner's `u32` counter is at `2^32 - 1` (owner-counter
overflow), or — the counter being below the cap and `bump` set — when the
`u128` supply counter is at `2^128 - 1` (supply overflow); there is no
other failure.  The spec's `LimitExceeded` error kind is realized in the
source as the two `Custom` overflow messages. -/
theorem increase_balance_error_iff (b : Balances) (owner : AccountId) (id : Id)
    (bump : Bool) (e : PSP34Error)
    (hb : b.balance_of owner < 2 ^ 32) (hs : b.total_supply < 2 ^ 128) :
    (b.increase_balance owner id bump).1 = .error e ↔
      (b.balance_of owner = 2 ^ 32 - 1 ∧
        e = .Custom "Max PSP34 balance exceeded. Max balance limited to 2^32-1.") ∨
      (b.balance_of owner < 2 ^ 32 - 1 ∧ bump = true ∧
        b.total_supply = 2 ^ 128 - 1 ∧
        e = .Custom "Max PSP34 supply exceeded. Max supply limited to 2^128-1.") := by
  by_cases h1 : b.balance_of owner + 1 < 2 ^ 32
  · cases bump with
    | false =>
      have hred : (b.increase_balance owner id false).1 = .ok () := by
        simp only [Balances.increase_balance]
        rw [if_pos h1]
        rfl
      rw [hred]
      constructor
      · intro h; exact absurd h (by simp)
      · rintro (⟨hmax, _⟩ | ⟨_, hfalse, _, _⟩)
        · omega
        · cases hfalse
    | true =>
      by_cases h2 : b.total_supply + 1 < 2 ^ 128
      · have hred : (b.increase_balance owner id true).1 = .ok () := by
          simp only [Balances.increase_balance]
          rw [if_pos h1, if_pos h2]
          simp
        rw [hred]
        constructor
        · intro h; exact absurd h (by simp)
        · rintro (⟨hmax, _⟩ | ⟨_, _, hsmax, _⟩) <;> omega
      · have hred : (b.increase_balance owner id true).1 =
            .error (.Custom "Max PSP34 supply exceeded. Max supply limited to 2^128-1.") := by
          simp only [Balances.increase_balance]
          rw [if_pos h1, if_neg h2]
          simp
        rw [hred]
        constructor
        · intro h
          injection h with h'
          exact .inr ⟨by omega, rfl, by omega, h'.symm⟩
        · rintro (⟨hmax, _⟩ | ⟨_, _, _, he⟩)
          · omega
          · rw [he]
  · have hred : (b.increase_balance owner id bump).1 =
        .error (.Custom "Max PSP34 balance exceeded. Max balance limited to 2^32-1.") := by
      simp only [Balances.increase_balance]
      rw [if_neg h1]
    rw [hred]
    constructor
    · intro h
      injection h with h'
      exact .inl ⟨by omega, h'.symm⟩
    · rintro (⟨_, he⟩ | ⟨hlt, _, _, _⟩)
      · rw [he]
      · omega

theorem increase_balance_error_iff_witness :
    (Balances.mk ⟨[(0, 2 ^ 32 - 1)]⟩ 0).balance_of 0 < 2 ^ 32 ∧
    (Balances.mk ⟨[(0, 2 ^ 32 - 1)]⟩ 0).total_supply < 2 ^ 128 ∧
    (((Balances.mk ⟨[(0, 2 ^ 32 - 1)]⟩ 0).increase_balance 0 (Id.U8 1) false).1 =
        .error (.Custom "Max PSP34 balance exceeded. Max balance limited to 2^32-1.") ↔
      ((Balances.mk ⟨[(0, 2 ^ 32 - 1)]⟩ 0).balance_of 0 = 2 ^ 32 - 1 ∧
        (.Custom "Max PSP34 balance exceeded. Max balance limited to 2^32-1."
            : PSP34Error) =
          .Custom "Max PSP34 balance exceeded. Max balance limited to 2^32-1.") ∨
      ((Balances.mk ⟨[(0, 2 ^ 32 - 1)]⟩ 0).balance_of 0 < 2 ^ 32 - 1 ∧ false = true ∧
        (Balances.mk ⟨[(0, 2 ^ 32 - 1)]⟩ 0).total_supply = 2 ^ 128 - 1 ∧
        (.Custom "Max PSP34 balance exceeded. Max balance limited to 2^32-1."
            : PSP34Error) =
          .Custom "Max PSP34 supply exceeded. Max supply limited to 2^128-1.")) :=
  ⟨by decide, by decide,
   increase_balance_error_iff (Balances.mk ⟨[(0, 2 ^ 32 - 1)]⟩ 0) 0 (Id.U8 1) false
     (.Custom "Max PSP34 balance exceeded. Max balance limited to 2^32-1.")
     (by decide) (by decide)⟩

/-- C7: a self-transfer — `owner_of id = Some(to)` — succeeds for every
caller (no allowance needed), returns the empty event list, and leaves the
ledger untouched: the source returns before any authorization check or
mutation. -/
theorem transfer_self_noop (d : PSP34Data) (caller to_ : AccountId) (id : Id)
    (payload : List Nat) (h : d.owner_of id = some to_) :
    d.transfer caller to_ id payload = (.ok [], d) := by
  simp [PSP34Data.transfer, h]

theorem transfer_self_noop_witness :
    ledgerA.owner_of (Id.U8 1) = some 0 ∧
    ledgerA.transfer 5 0 (Id.U8 1) [] = (.ok [], ledgerA) :=
  ⟨by decide, transfer_self_noop ledgerA 5 0 (Id.U8 1) [] (by decide)⟩

/-- C8 counterexample: the claim quantifies over every caller, but an
unauthorized caller does not reach the blanket-revoke guard.  In
`ledgerAB` (account `0` owns `U8 1`, operator `1` holds a blanket approval
from `0`), `approve(caller = 5, operator = 1, Some(U8 1), false)` fails
with `NotApproved`, not with the descriptive custom error. -/
theorem approve_revoke_single_unauthorized_caller_not_custom :
    ledgerAB.owner_of (Id.U8 1) = some 0 ∧
    ledgerAB.allowance 0 1 none = true ∧
    (ledgerAB.approve 5 1 (some (Id.U8 1)) false).1 = .error .NotApproved ∧
    (ledgerAB.approve 5 1 (some (Id.U8 1)) false).1 ≠
      .error (.Custom "Cannot revoke approval for a single token, when the operator has approval for all tokens.") := by
  decide

/-- C8 (amended): whenever `id` is owned, the operator holds a blanket
approval from the resolved owner, and the caller is the owner or holds a
blanket allowance from the owner, `approve(caller, operator, Some(id),
false)` fails with the descriptive custom error and the ledger — in
particular the approval set — is unchanged. -/
theorem approve_revoke_single_with_blanket_fails (d : PSP34Data)
    (caller operator owner : AccountId) (id : Id)
    (h1 : d.owner_of id = some owner)
    (h2 : d.allowance owner operator none = true)
    (h3 : caller = owner ∨ d.allowance owner caller none = true) :
    d.approve caller operator (some id) false =
      (.error (.Custom "Cannot revoke approval for a single token, when the operator has approval for all tokens."),
       d) := by
  have hguard : ¬ (owner ≠ caller ∧ d.allowance owner caller none = false) := by
    rcases h3 with h | h
    · rintro ⟨hne, _⟩; exact hne h.symm
    · rintro ⟨_, hf⟩; rw [h] at hf; cases hf
  simp [PSP34Data.approve, h1, hguard, h2]

theorem approve_revoke_single_with_blanket_fails_witness :
    ledgerAB.owner_of (Id.U8 1) = some 0 ∧
    ledgerAB.allowance 0 1 none = true ∧
    ledgerAB.approve 0 1 (some (Id.U8 1)) false =
      (.error (.Custom "Cannot revoke approval for a single token, when the operator has approval for all tokens."),
       ledgerAB) :=
  ⟨by decide, by decide,
   approve_revoke_single_with_blanket_fails ledgerAB 0 1 0 (Id.U8 1) (by decide)
     (by decide) (.inl rfl)⟩

/-- C9: the claim — for every `u128` index the enumeration views fail only
with `TokenNotExists` — is violated by the code.  On `enumLedger` (global
list `[U8 1]`, account `0`'s list `[U8 1]`) the in-range and
just-out-of-range indices behave as claimed, but index `2^64` (beyond
`usize`) makes `usize::try_from(index).unwrap()` fault instead of
returning the typed error. -/
theorem token_by_index_faults_on_large_index :
    enumLedger.token_by_index 0 = .ok (.ok (Id.U8 1)) ∧
    enumLedger.token_by_index 1 = .ok (.error .TokenNotExists) ∧
    enumLedger.owners_token_by_index 0 0 = .ok (.ok (Id.U8 1)) ∧
    enumLedger.token_by_index (2 ^ 64) = .fault ∧
    enumLedger.owners_token_by_index 0 (2 ^ 64) = .fault := by decide

/-- C10: `approve(caller, operator, None, approved)` always succeeds —
whatever the state, even when `operator = caller` — returning exactly one
`Approval{owner: caller, operator, id: None, approved}` event; and
`SelfApprove` can only ever arise from a call that supplies a specific id
with `approved = true`. -/
theorem approve_blanket_always_ok_selfapprove_needs_id :
    (∀ (d : PSP34Data) (caller operator : AccountId) (approved : Bool),
      (d.approve caller operator none approved).1 =
        .ok [.Approval caller operator none approved]) ∧
    (∀ (d : PSP34Data) (caller operator : AccountId) (id : Option Id)
        (approved : Bool),
      (d.approve caller operator id approved).1 = .error .SelfApprove →
        id ≠ none ∧ approved = true) := by
  constructor
  · intro d caller operator approved
    rfl
  · intro d caller operator id approved h
    cases id with
    | none => simp [PSP34Data.approve] at h
    | some i =>
      cases hw : d.owner_of i with
      | none => simp [PSP34Data.approve, hw] at h
      | some owner =>
        simp only [PSP34Data.approve, hw] at h
        split_ifs at h with hc1 hc2 hc3 <;>
          first
          | exact ⟨by simp, hc1.1⟩
          | simp_all

theorem approve_blanket_always_ok_selfapprove_needs_id_witness :
    (PSP34Data.new.approve 3 3 none true).1 = .ok [.Approval 3 3 none true] ∧
    ((some (Id.U8 1) : Option Id) ≠ none ∧ true = true) :=
  ⟨approve_blanket_always_ok_selfapprove_needs_id.1 PSP34Data.new 3 3 true,
   approve_blanket_always_ok_selfapprove_needs_id.2 ledgerA 0 0 (some (Id.U8 1))
     true (by decide)⟩

end PSP34
